import Mathlib

/-!
Shallow embedding of the RIP-7560 native-account-abstraction state processor
(files `core/state_processor_rip7560.go` / its newer revision, `core/rip7712_nonce.go`,
`core/rip7560_abi_constants.go` and the `types.Rip7560AccountAbstractionTx` model).

Machine integers are modelled as `Nat` with explicit reductions `% 2^64` / `% 2^256`
at every point where the Go code performs wrapping `uint64` / `uint256` arithmetic.
The EVM, the state database journal and the ABI byte-level codecs are external
collaborators of the code under verification; they are modelled as explicit oracle
parameters (`Env`) and a concrete `StateDB` record, so every definition stays
executable.
-/

namespace Rip7560

/-! ## Wrapping machine arithmetic -/

/-- Reduction of a `Nat` to the value of the corresponding Go `uint64`. -/
def wrap64 (n : Nat) : Nat := n % 2 ^ 64

/-- Reduction of a `Nat` to the value of the corresponding `uint256`. -/
def wrap256 (n : Nat) : Nat := n % 2 ^ 256

/-- Go `uint64` subtraction `a - b` (wraps around on underflow). -/
def sub64 (a b : Nat) : Nat := (wrap64 a + 2 ^ 64 - wrap64 b) % 2 ^ 64

/-- `uint256` subtraction `a - b` (wraps around on underflow). -/
def sub256 (a b : Nat) : Nat := (wrap256 a + 2 ^ 256 - wrap256 b) % 2 ^ 256

/-- Reinterpretation of a Go `uint64` value as `int64` (the cast `int64(x)`). -/
def goInt64 (n : Nat) : Int := if n < 2 ^ 63 then (n : Int) else (n : Int) - 2 ^ 64

/-! ## Constants from `core/rip7560_abi_constants.go`, `core/rip7712_nonce.go`
and `params` -/

/-- `AA_ENTRY_POINT = 0x0000000000000000000000000000000000007560`. -/
def AA_ENTRY_POINT : Nat := 0x7560

/-- `AA_SENDER_CREATOR = 0x00000000000000000000000000000000ffff7560`. -/
def AA_SENDER_CREATOR : Nat := 0xffff7560

/-- `AA_NONCE_MANAGER = 0x4200000000000000000000000000000000000024`. -/
def AA_NONCE_MANAGER : Nat := 0x4200000000000000000000000000000000000024

/-- `AA_GAS_PENALTY_PCT = 10` (percent of unused execution / post-op gas charged). -/
def AA_GAS_PENALTY_PCT : Nat := 10

/-- `params.RefundQuotientEIP3529 = 5`. -/
def RefundQuotientEIP3529 : Nat := 5

/-- `PaymasterMaxContextSize = 65536`. -/
def PaymasterMaxContextSize : Nat := 65536

/-- Execution status `0`: both frames succeeded. -/
def ExecutionStatusSuccess : Nat := 0

/-- Execution status `1`: the account execution frame reverted. -/
def ExecutionStatusExecutionFailure : Nat := 1

/-- Execution status `2`: the paymaster post-op frame reverted. -/
def ExecutionStatusPostOpFailure : Nat := 2

/-- Execution status `3`: both the execution and the post-op frame reverted. -/
def ExecutionStatusExecutionAndPostOpFailure : Nat := 3

/-! ## Transaction model (`types.Rip7560AccountAbstractionTx`)

Addresses are modelled as `Nat` (the 160-bit value of the 20-byte address);
byte strings as `List Nat` with every element a byte. Fields of the Go struct
that no embedded operation reads (`ChainID`, `AccessList`, `AuthorizationData`,
`BuilderFee`) are omitted. -/

structure AATx where
  nonce : Nat
  gasTipCap : Nat
  gasFeeCap : Nat
  gas : Nat
  sender : Nat
  executionData : List Nat
  paymaster : Option Nat
  paymasterData : List Nat
  deployer : Option Nat
  deployerData : List Nat
  validationGasLimit : Nat
  paymasterValidationGasLimit : Nat
  postOpGas : Nat
  nonceKey : Option Nat

/-- `GasPayer`: the paymaster when present and non-zero, otherwise the sender. -/
def GasPayer (tx : AATx) : Nat :=
  match tx.paymaster with
  | some p => if p ≠ 0 then p else tx.sender
  | none => tx.sender

/-- `IsRip7712Nonce`: true when `NonceKey` is set and strictly positive. -/
def IsRip7712Nonce (tx : AATx) : Bool :=
  match tx.nonceKey with
  | some k => decide (0 < k)
  | none => false

/-- `SumGas`: adds `uint64` gas values with wraparound, rejecting any single
value above `1 << 62`. -/
def SumGas (vals : List Nat) : Option Nat :=
  vals.foldl
    (fun acc val =>
      match acc with
      | none => none
      | some sum => if val > 2 ^ 62 then none else some (wrap64 (sum + val)))
    (some 0)

/-- `TotalGasLimit`: `SumGas(params.Rip7560TxGas, Gas, ValidationGasLimit,
PaymasterValidationGasLimit, PostOpGas)`. The constant `params.Rip7560TxGas`
is defined outside the embedded sources, so it is taken as the parameter
`baseTxGas`. -/
def TotalGasLimit (baseTxGas : Nat) (tx : AATx) : Option Nat :=
  SumGas [baseTxGas, tx.gas, tx.validationGasLimit, tx.paymasterValidationGasLimit, tx.postOpGas]

/-- `effectiveGasPrice` on `*big.Int` values: with a base fee, the tip
`GasFeeCap - baseFee` (possibly negative) is capped at `GasTipCap` and
the base fee added back; without a base fee the result is `GasFeeCap`. -/
def effectiveGasPriceInt (tx : AATx) (baseFee : Option Nat) : Int :=
  match baseFee with
  | none => (tx.gasFeeCap : Int)
  | some bf =>
    let tip : Int := (tx.gasFeeCap : Int) - (bf : Int)
    let tip : Int := if tip > (tx.gasTipCap : Int) then (tx.gasTipCap : Int) else tip
    tip + (bf : Int)

/-- `EffectiveGasPrice` as the non-negative value fed into `uint256.MustFromBig`. -/
def EffectiveGasPrice (tx : AATx) (baseFee : Option Nat) : Nat :=
  (effectiveGasPriceInt tx baseFee).toNat

/-! ## Byte-level encoding helpers (`common.Address.Bytes`, `math.PaddedBigBytes`) -/

/-- Fixed-width big-endian byte encoding (`n` bytes) of `v`. -/
def beBytes : Nat → Nat → List Nat
  | 0, _ => []
  | n + 1, v => beBytes n (v / 256) ++ [v % 256]

/-- `big.Int.BitLen` of a non-negative value. -/
def bitLen (v : Nat) : Nat := if v = 0 then 0 else Nat.log2 v + 1

/-- `big.Int.Bytes`: minimal-length big-endian encoding of the absolute value. -/
def bigIntBytes (v : Nat) : List Nat := beBytes ((bitLen v + 7) / 8) v

/-- `math.PaddedBigBytes(bigint, n)`: the minimal encoding when
`BitLen()/8 >= n`, otherwise the `n`-byte zero-padded encoding. -/
def paddedBigBytes (v n : Nat) : List Nat :=
  if bitLen v / 8 ≥ n then bigIntBytes v else beBytes n v

/-- `prepareNonceManagerMessage`: `sender.Bytes() ∥ PaddedBigBytes(NonceKey, 24)
∥ PaddedBigBytes(big.NewInt(int64(Nonce)), 8)`. The Go code dereferences the
`NonceKey` pointer, which is non-nil on every path reaching this function;
`getD 0` models the dereference. The nonce passes through the cast
`int64(tx.Nonce)` and `big.Int` encoding uses the absolute value. -/
def prepareNonceManagerMessage (tx : AATx) : List Nat :=
  beBytes 20 tx.sender ++
    paddedBigBytes (tx.nonceKey.getD 0) 24 ++
    paddedBigBytes (goInt64 tx.nonce).natAbs 8

/-! ## State database model

`StateDB` models the slice of `vm.StateDB` that the embedded code touches:
balances, account nonces, code sizes, the EIP-3529 refund counter, and the
log journal. Snapshot / revert is value capture and restoration of the record. -/

inductive EventTag where
  | transactionEvent (executionStatus : Nat)
  | accountDeployed
  | transactionRevertReason (revertData : List Nat)
  | postOpRevertReason (revertData : List Nat)
deriving DecidableEq

structure LogEntry where
  address : Nat
  tag : EventTag
deriving DecidableEq

structure StateDB where
  balance : Nat → Nat
  nonce : Nat → Nat
  codeSize : Nat → Nat
  refund : Nat
  logs : List LogEntry

/-- `StateDB.AddBalance` (`uint256` addition). -/
def addBalance (σ : StateDB) (a amt : Nat) : StateDB :=
  { σ with balance := fun x => if x = a then wrap256 (σ.balance x + amt) else σ.balance x }

/-- `StateDB.SubBalance` (`uint256` subtraction). -/
def subBalance (σ : StateDB) (a amt : Nat) : StateDB :=
  { σ with balance := fun x => if x = a then sub256 (σ.balance x) amt else σ.balance x }

/-- `StateDB.SetNonce`. -/
def setNonce (σ : StateDB) (a v : Nat) : StateDB :=
  { σ with nonce := fun x => if x = a then v else σ.nonce x }

/-- `injectEvent`: appends a log with `Address = AA_ENTRY_POINT` (the ABI
packing of topics and data is an external codec and is abstracted to the tag). -/
def injectEvent (σ : StateDB) (tag : EventTag) : StateDB :=
  { σ with logs := σ.logs ++ [{ address := AA_ENTRY_POINT, tag := tag }] }

/-! ## The EVM oracle -/

/-- Raw result of `evm.Call`: return data, gas used (`gasLimit - gasRemaining`),
whether it failed (`err != nil`), and the mutated state. -/
structure RawCallResult where
  returnData : List Nat
  usedGas : Nat
  failed : Bool
  state : StateDB

/-- External collaborators: the EVM call oracle and the ABI encoder of
`postPaymasterTransaction` (both outside the embedded sources). -/
structure Env where
  call : StateDB → Nat → Nat → List Nat → Nat → RawCallResult
  encodePostOp : Bool → Nat → List Nat → List Nat

/-- `ExecutionResult` as produced by `CallFrame` (its `RefundedGas` field is
never assigned there, so it is the zero value). -/
structure ExecutionResult where
  returnData : List Nat
  usedGas : Nat
  refundedGas : Nat
  failed : Bool

/-- `CallFrame`: performs `evm.Call` and repackages the result. (The
decrement of `st.gasRemaining` is threaded explicitly by the callers that
read it.) -/
def CallFrame (env : Env) (σ : StateDB) (sender toAddr : Nat) (data : List Nat) (gasLimit : Nat) :
    ExecutionResult × StateDB :=
  let r := env.call σ sender toAddr data gasLimit
  ({ returnData := r.returnData, usedGas := r.usedGas, refundedGas := 0, failed := r.failed },
    r.state)

/-! ## Gas pre-charge (`BuyGasRip7560Transaction`) -/

inductive BuyGasError where
  | invalidGasValues
  | insufficientFunds
  | gasLimitReached
deriving DecidableEq

/-- `BuyGasRip7560Transaction`: computes the total gas limit, multiplies it by
the effective gas price into the `uint256` pre-charge, checks the gas payer's
balance, subtracts the pre-charge, and reserves the gas from the block gas
pool (`GasPool.SubGas` fails when the pool holds less than the amount). The
mutated state and pool are returned on every path, mirroring the in-place
mutation of the Go `statedb` / `gp`. -/
def BuyGasRip7560Transaction (baseTxGas : Nat) (tx : AATx) (σ : StateDB) (gasPrice : Nat)
    (gp : Nat) : Except BuyGasError (Nat × Nat) × StateDB × Nat :=
  match TotalGasLimit baseTxGas tx with
  | none => (.error .invalidGasValues, σ, gp)
  | some gasLimit =>
    let preCharge := wrap256 (gasLimit * gasPrice)
    let chargeFrom := GasPayer tx
    if σ.balance chargeFrom < preCharge then (.error .insufficientFunds, σ, gp)
    else
      let σ := subBalance σ chargeFrom preCharge
      if gp < gasLimit then (.error .gasLimitReached, σ, gp)
      else (.ok (gasLimit, preCharge), σ, gp - gasLimit)

/-! ## Nonce checks (`CheckNonceRip7560`, `performNonceCheckFrameRip7712`) -/

inductive NonceError where
  | nonceTooHigh
  | nonceTooLow
  | nonceMax
  | rip7712Disabled
  | frameReverted (entity : String)
deriving DecidableEq

/-- `performNonceCheckFrameRip7712`: rejected outright when the RIP-7712 fork
is inactive; otherwise an EVM call from `AA_ENTRY_POINT` to `AA_NONCE_MANAGER`
with the 52-byte message, under the state transition's full remaining gas.
A failed frame surfaces as a frame revert attributed to entity
`NonceManager`. -/
def performNonceCheckFrameRip7712 (env : Env) (σ : StateDB) (tx : AATx)
    (rip7712Active : Bool) (gasRemaining : Nat) : Except NonceError (Nat × StateDB) :=
  if !rip7712Active then .error .rip7712Disabled
  else
    let nonceManagerMessageData := prepareNonceManagerMessage tx
    let (resultNonceManager, σ) :=
      CallFrame env σ AA_ENTRY_POINT AA_NONCE_MANAGER nonceManagerMessageData gasRemaining
    if resultNonceManager.failed then .error (.frameReverted "NonceManager")
    else .ok (resultNonceManager.usedGas, σ)

/-- `CheckNonceRip7560`: the RIP-7712 frame for two-dimensional nonces,
otherwise the static comparison of the sender's account nonce with the
transaction nonce (`stNonce+1 < stNonce` is the wrapping `uint64` overflow
test). -/
def CheckNonceRip7560 (env : Env) (σ : StateDB) (tx : AATx) (rip7712Active : Bool)
    (gasRemaining : Nat) : Except NonceError (Nat × StateDB) :=
  if IsRip7712Nonce tx then performNonceCheckFrameRip7712 env σ tx rip7712Active gasRemaining
  else
    let stNonce := σ.nonce tx.sender
    if stNonce < tx.nonce then .error .nonceTooHigh
    else if stNonce > tx.nonce then .error .nonceTooLow
    else if wrap64 (stNonce + 1) < stNonce then .error .nonceMax
    else .ok (0, σ)

/-! ## Deployer frame / nonce increment
(`ApplyRip7560ValidationPhases`, deployer section) -/

inductive DeployerError where
  | frameReverted (entity : String)
  | senderNotDeployed
deriving DecidableEq

/-- The deployer section of `ApplyRip7560ValidationPhases`: with a deployer,
an EVM call from `AA_SENDER_CREATOR` under budget
`ValidationGasLimit - preTransactionGasCost`, requiring the frame to succeed
and the sender to have code afterwards; without a deployer, the sender's
account nonce is incremented by one (wrapping `uint64` add) unless the
transaction uses a RIP-7712 two-dimensional nonce. Returns the deployment
used gas and the resulting state. -/
def applyDeployerFrame (env : Env) (tx : AATx) (σ : StateDB) (preTransactionGasCost : Nat) :
    Except DeployerError (Nat × StateDB) :=
  match tx.deployer with
  | some deployer =>
    let deployerGasLimit := sub64 tx.validationGasLimit preTransactionGasCost
    let (resultDeployer, σ) :=
      CallFrame env σ AA_SENDER_CREATOR deployer tx.deployerData deployerGasLimit
    if resultDeployer.failed then .error (.frameReverted "deployer")
    else if σ.codeSize tx.sender = 0 then .error .senderNotDeployed
    else .ok (resultDeployer.usedGas, σ)
  | none =>
    if !IsRip7712Nonce tx then
      .ok (0, setNonce σ tx.sender (wrap64 (σ.nonce tx.sender + 1)))
    else .ok (0, σ)

/-! ## Validity time range (`validateValidityTimeRange`) -/

inductive TimeRangeError where
  | rangeInvalid
  | expired
  | notReachedYet
deriving DecidableEq

/-- `validateValidityTimeRange`: the all-zero window is unconstrained, an
inverted window is invalid, and otherwise the block time must lie inside
`[validAfter, validUntil]` (both bounds inclusive). -/
def validateValidityTimeRange (time validAfter validUntil : Nat) : Except TimeRangeError Unit :=
  if validUntil = 0 ∧ validAfter = 0 then .ok ()
  else if validUntil < validAfter then .error .rangeInvalid
  else if time > validUntil then .error .expired
  else if time < validAfter then .error .notReachedYet
  else .ok ()

/-! ## EntryPoint callback interceptor (`EntryPointCall`, `OnEnter`,
`validateAccountEntryPointCall`, `validatePaymasterEntryPointCall`) -/

structure EntryPointCall where
  input : Option (List Nat)
  fromAddr : Nat
  err : Bool
deriving DecidableEq

/-- The zero-value `EntryPointCall` installed at the start of validation. -/
def emptyEntryPointCall : EntryPointCall := { input := none, fromAddr := 0, err := false }

/-- One EVM call entry as seen by the tracer hook. -/
structure EvmCallInfo where
  caller : Nat
  callee : Nat
  callInput : List Nat
deriving DecidableEq

/-- `EntryPointCall.OnEnter`: ignores calls whose callee is not
`AA_ENTRY_POINT`; a second call to the EntryPoint records an error; the first
one captures the input bytes and the caller. -/
def OnEnter (epc : EntryPointCall) (c : EvmCallInfo) : EntryPointCall :=
  if c.callee ≠ AA_ENTRY_POINT then epc
  else if epc.input.isSome then { epc with err := true }
  else { epc with input := some c.callInput, fromAddr := c.caller }

/-- The interceptor state after a sequence of EVM call entries. -/
def runCalls (epc : EntryPointCall) (cs : List EvmCallInfo) : EntryPointCall :=
  cs.foldl OnEnter epc

/-- Whether a call entry targets the EntryPoint address. -/
def isEntryPointCall (c : EvmCallInfo) : Bool := c.callee == AA_ENTRY_POINT

inductive CallbackError where
  | repeatedCall
  | noCallback
  | wrongCaller
deriving DecidableEq

/-- `validateAccountEntryPointCall` up to (and excluding) the external ABI
decode of `acceptAccount`: the interceptor error, the missing-callback check
and the wrong-caller check, returning the captured bytes for decoding. -/
def validateAccountEntryPointCall (epc : EntryPointCall) (sender : Nat) :
    Except CallbackError (List Nat) :=
  if epc.err then .error .repeatedCall
  else
    match epc.input with
    | none => .error .noCallback
    | some inp => if epc.fromAddr ≠ sender then .error .wrongCaller else .ok inp

/-- `validatePaymasterEntryPointCall` up to the external ABI decode of
`acceptPaymaster`. -/
def validatePaymasterEntryPointCall (epc : EntryPointCall) (paymaster : Nat) :
    Except CallbackError (List Nat) :=
  if epc.err then .error .repeatedCall
  else
    match epc.input with
    | none => .error .noCallback
    | some inp => if epc.fromAddr ≠ paymaster then .error .wrongCaller else .ok inp

/-- The clearing of the captured buffer between the account and paymaster
sub-frames (`epc.err = nil; epc.Input = nil; epc.From = common.Address{}`). -/
def clearEntryPointCall (_epc : EntryPointCall) : EntryPointCall :=
  { err := false, input := none, fromAddr := 0 }

/-! ## Execution phase (`ApplyRip7560ExecutionPhase`, `refundPayer`,
`payCoinbase`, `capRefund`, `applyPaymasterPostOpFrame`) -/

/-- In-memory validation result consumed by the execution phase
(`ValidationPhaseResult`; the hash and index fields are omitted). -/
structure ValidationPhaseResult where
  tx : AATx
  paymasterContext : List Nat
  preCharge : Nat
  effectiveGasPrice : Nat
  preTransactionGasCost : Nat
  validationRefund : Nat
  nonceManagerUsedGas : Nat
  deploymentUsedGas : Nat
  validationUsedGas : Nat
  pmValidationUsedGas : Nat

/-- `validationPhaseUsedGas`: `SumGas` over the five validation-phase
used-gas counters. -/
def validationPhaseUsedGas (vpr : ValidationPhaseResult) : Option Nat :=
  SumGas [vpr.preTransactionGasCost, vpr.nonceManagerUsedGas, vpr.deploymentUsedGas,
    vpr.validationUsedGas, vpr.pmValidationUsedGas]

/-- `capRefund`: the EIP-3529 refund, capped at `gasUsed / 5`. -/
def capRefund (getRefund gasUsed : Nat) : Nat :=
  let refund := gasUsed / RefundQuotientEIP3529
  if refund > getRefund then getRefund else refund

/-- Block-level context of the execution phase: coinbase, base fee, the
`IsLondon` rule and the `NoBaseFee` configuration flag. -/
structure BlockCtx where
  coinbase : Nat
  baseFee : Nat
  isLondon : Bool
  noBaseFee : Bool

/-- The `uint256` refund amount computed inside `refundPayer`:
`PreCharge - EffectiveGasPrice * gasUsed` in wrapping 256-bit arithmetic. -/
def refundAmount (vpr : ValidationPhaseResult) (gasUsed : Nat) : Nat :=
  sub256 vpr.preCharge (wrap256 (vpr.effectiveGasPrice * gasUsed))

/-- `refundPayer`: credits the gas payer with the excess of the pre-charge
over the actual gas cost. -/
def refundPayer (vpr : ValidationPhaseResult) (σ : StateDB) (gasUsed : Nat) : StateDB :=
  addBalance σ (GasPayer vpr.tx) (refundAmount vpr gasUsed)

/-- The `uint256` effective tip of `payCoinbase`:
`min(GasTipCap, GasFeeCap - BaseFee)` under London rules (computed on
`big.Int`, so possibly negative, and then converted two's-complement style
by `uint256.SetFromBig`), otherwise `GasTipCap`. -/
def effectiveTipU256 (ctx : BlockCtx) (tx : AATx) : Nat :=
  let effectiveTip : Int :=
    if ctx.isLondon then min (tx.gasTipCap : Int) ((tx.gasFeeCap : Int) - (ctx.baseFee : Int))
    else (tx.gasTipCap : Int)
  (effectiveTip % (2 ^ 256 : Int)).toNat

/-- The `uint256` fee credited to the coinbase by `payCoinbase`. -/
def coinbaseFeeAmount (ctx : BlockCtx) (tx : AATx) (gasUsed : Nat) : Nat :=
  wrap256 (gasUsed * effectiveTipU256 ctx tx)

/-- `payCoinbase`: fee payment is skipped when `NoBaseFee` is set and both fee
fields are zero; otherwise `gasUsed * effectiveTip` is added to the coinbase
balance. (The EIP-4762 witness access event has no state effect here.) -/
def payCoinbase (ctx : BlockCtx) (σ : StateDB) (tx : AATx) (gasUsed : Nat) : StateDB :=
  if ctx.noBaseFee = true ∧ tx.gasFeeCap = 0 ∧ tx.gasTipCap = 0 then σ
  else addBalance σ ctx.coinbase (coinbaseFeeAmount ctx tx gasUsed)

/-- Result of the paymaster post-op section of the execution phase. -/
structure PostOpOutcome where
  gasUsed : Nat
  gasRefund : Nat
  state : StateDB
  receiptFailed : Bool
  executionStatus : Nat
  postOpFailed : Bool
  postOpReturnData : List Nat

/-- The `if len(vpr.PaymasterContext) != 0` block of
`ApplyRip7560ExecutionPhase`: the post-op frame
(`applyPaymasterPostOpFrame`), the refund accumulation, the
revert-on-failure with its execution-status update (the
conditional assignment of `ExecutionStatusExecutionAndPostOpFailure` in the
source is immediately overwritten by the unconditional assignment of
`ExecutionStatusPostOpFailure` on the following line, which the shadowing
`let`s mirror), and the post-op penalty. -/
def postOpStep (env : Env) (vpr : ValidationPhaseResult) (beforeExecSnapshot σ : StateDB)
    (executionResult : ExecutionResult) (gasUsed gasRefund : Nat) (receiptFailed : Bool)
    (executionStatus : Nat) : PostOpOutcome :=
  if vpr.paymasterContext.length ≠ 0 then
    let aatx := vpr.tx
    let (paymasterPostOpResult, σ2) :=
      CallFrame env σ AA_ENTRY_POINT (aatx.paymaster.getD 0)
        (env.encodePostOp (!executionResult.failed) (sub64 gasUsed gasRefund)
          vpr.paymasterContext)
        aatx.postOpGas
    let postOpGasUsed := paymasterPostOpResult.usedGas
    let gasRefund := wrap64 (gasRefund + capRefund paymasterPostOpResult.refundedGas postOpGasUsed)
    let (σ3, receiptFailed, executionStatus) :=
      if paymasterPostOpResult.failed then
        let executionStatus :=
          if executionStatus = ExecutionStatusExecutionFailure then
            ExecutionStatusExecutionAndPostOpFailure
          else executionStatus
        let executionStatus := ExecutionStatusPostOpFailure
        (beforeExecSnapshot, true, executionStatus)
      else (σ2, receiptFailed, executionStatus)
    let postOpGasPenalty := wrap64 (sub64 aatx.postOpGas postOpGasUsed * AA_GAS_PENALTY_PCT) / 100
    let postOpGasUsed := wrap64 (postOpGasUsed + postOpGasPenalty)
    let gasUsed := wrap64 (gasUsed + postOpGasUsed)
    { gasUsed := gasUsed, gasRefund := gasRefund, state := σ3, receiptFailed := receiptFailed,
      executionStatus := executionStatus, postOpFailed := paymasterPostOpResult.failed,
      postOpReturnData := paymasterPostOpResult.returnData }
  else
    { gasUsed := gasUsed, gasRefund := gasRefund, state := σ, receiptFailed := receiptFailed,
      executionStatus := executionStatus, postOpFailed := false, postOpReturnData := [] }

/-- The receipt-relevant outcome of the execution phase. -/
structure ExecOutcome where
  executionStatus : Nat
  receiptFailed : Bool
  gasUsed : Nat
  state : StateDB
  gasPool : Nat

/-- The tail of `ApplyRip7560ExecutionPhase` after the post-op block: refund
subtraction, payer refund, coinbase payment, the guarded return of the unused
remainder to the block gas pool (`none` models the `panic` when
`totalGasLimit < gasUsed`, and the `GasPool.AddGas` overflow panic), and the
four event injections. -/
def finishExecutionPhase (ctx : BlockCtx) (vpr : ValidationPhaseResult) (baseTxGas gp : Nat)
    (executionResult : ExecutionResult) (p : PostOpOutcome) : Option ExecOutcome :=
  let aatx := vpr.tx
  let gasUsed := sub64 p.gasUsed p.gasRefund
  let σ := refundPayer vpr p.state gasUsed
  let σ := payCoinbase ctx σ aatx gasUsed
  let totalGasLimit := (TotalGasLimit baseTxGas aatx).getD 0
  if totalGasLimit < gasUsed then none
  else
    let gasRemaining := totalGasLimit - gasUsed
    if 2 ^ 64 - 1 - gasRemaining < gp then none
    else
      let gp := gp + gasRemaining
      let σ := injectEvent σ (EventTag.transactionEvent p.executionStatus)
      let σ := if aatx.deployer.isSome then injectEvent σ EventTag.accountDeployed else σ
      let σ :=
        if executionResult.failed then
          injectEvent σ (EventTag.transactionRevertReason executionResult.returnData)
        else σ
      let σ :=
        if p.postOpFailed then injectEvent σ (EventTag.postOpRevertReason p.postOpReturnData)
        else σ
      some { executionStatus := p.executionStatus, receiptFailed := p.receiptFailed,
             gasUsed := gasUsed, state := σ, gasPool := gp }

/-- `ApplyRip7560ExecutionPhase`: snapshot before the account execution call,
the execution frame under budget `Gas`, the unused-gas penalty, the capped
refund over the validation and execution refunds, the paymaster post-op block,
and the final settlement. -/
def ApplyRip7560ExecutionPhase (env : Env) (ctx : BlockCtx) (vpr : ValidationPhaseResult)
    (σ : StateDB) (gp baseTxGas : Nat) : Option ExecOutcome :=
  let aatx := vpr.tx
  let beforeExecSnapshot := σ
  let (executionResult, σ) :=
    CallFrame env σ AA_ENTRY_POINT aatx.sender aatx.executionData aatx.gas
  let receiptFailed := executionResult.failed
  let executionStatus :=
    if executionResult.failed then ExecutionStatusExecutionFailure else ExecutionStatusSuccess
  let execRefund := capRefund σ.refund executionResult.usedGas
  let executionGasPenalty :=
    wrap64 (sub64 aatx.gas executionResult.usedGas * AA_GAS_PENALTY_PCT) / 100
  let vUsed := (validationPhaseUsedGas vpr).getD 0
  let gasUsed := wrap64 (vUsed + executionResult.usedGas + executionGasPenalty)
  let gasRefund := capRefund (wrap64 (execRefund + vpr.validationRefund)) gasUsed
  let p := postOpStep env vpr beforeExecSnapshot σ executionResult gasUsed gasRefund
    receiptFailed executionStatus
  finishExecutionPhase ctx vpr baseTxGas gp executionResult p

/-! ## Concrete instances used to evaluate the definitions -/

/-- An all-zero state. -/
def zeroState : StateDB :=
  { balance := fun _ => 0, nonce := fun _ => 0, codeSize := fun _ => 0, refund := 0, logs := [] }

/-- A transaction with all fields zero / empty. -/
def baseTx : AATx :=
  { nonce := 0, gasTipCap := 0, gasFeeCap := 0, gas := 0, sender := 0, executionData := [],
    paymaster := none, paymasterData := [], deployer := none, deployerData := [],
    validationGasLimit := 0, paymasterValidationGasLimit := 0, postOpGas := 0, nonceKey := none }

/-- An EVM oracle whose calls succeed, use no gas and leave the state
untouched. -/
def trivialEnv : Env :=
  { call := fun σ _ _ _ _ => { returnData := [], usedGas := 0, failed := false, state := σ },
    encodePostOp := fun _ _ _ => [] }

/-- Scenario: account execution frame reverts and the paymaster post-op frame
also reverts. The callee distinguishes the two frames; each mutates a fresh
balance slot so that the snapshot revert is observable. -/
def cEnv1 : Env :=
  { call := fun σ _ toAddr _ _ =>
      if toAddr = 1 then
        { returnData := [], usedGas := 5, failed := true, state := addBalance σ 99 77 }
      else if toAddr = 2 then
        { returnData := [222], usedGas := 5, failed := true, state := addBalance σ 98 55 }
      else { returnData := [], usedGas := 0, failed := false, state := σ },
    encodePostOp := fun _ _ _ => [] }

def cTx1 : AATx :=
  { baseTx with
    sender := 1, paymaster := some 2, gas := 10, postOpGas := 10,
    validationGasLimit := 10 }

def cVpr1 : ValidationPhaseResult :=
  { tx := cTx1, paymasterContext := [1], preCharge := 0, effectiveGasPrice := 0,
    preTransactionGasCost := 0, validationRefund := 0, nonceManagerUsedGas := 0,
    deploymentUsedGas := 0, validationUsedGas := 0, pmValidationUsedGas := 0 }

def cCtx1 : BlockCtx := { coinbase := 50, baseFee := 0, isLondon := true, noBaseFee := false }

/-- Scenario: a paid transaction where the base fee is positive, to test the
settlement identity. -/
def cTx2 : AATx :=
  { baseTx with
    sender := 1, gasFeeCap := 1, gasTipCap := 0, validationGasLimit := 2 }

def cVpr2 : ValidationPhaseResult :=
  { tx := cTx2, paymasterContext := [], preCharge := 2, effectiveGasPrice := 1,
    preTransactionGasCost := 0, validationRefund := 0, nonceManagerUsedGas := 0,
    deploymentUsedGas := 0, validationUsedGas := 0, pmValidationUsedGas := 0 }

def cCtx2 : BlockCtx := { coinbase := 2, baseFee := 1, isLondon := true, noBaseFee := false }

/-- Scenario: every gas component at the documented bound `2^62`. -/
def cTx3 : AATx :=
  { baseTx with
    gas := 2 ^ 62, validationGasLimit := 2 ^ 62,
    paymasterValidationGasLimit := 2 ^ 62, postOpGas := 2 ^ 62 }

/-- Scenario: the nonce-manager frame consumed the full remaining gas of the
state transition (its budget is the whole `totalGasLimit`), which the later
sub-frame budgets do not account for. -/
def cTx5 : AATx := { baseTx with validationGasLimit := 100 }

def cVpr5 : ValidationPhaseResult :=
  { tx := cTx5, paymasterContext := [], preCharge := 0, effectiveGasPrice := 0,
    preTransactionGasCost := 0, validationRefund := 0, nonceManagerUsedGas := 100,
    deploymentUsedGas := 0, validationUsedGas := 50, pmValidationUsedGas := 0 }

def cCtx5 : BlockCtx := { coinbase := 0, baseFee := 0, isLondon := true, noBaseFee := false }

/-- Scenario: a two-dimensional nonce whose sequence part does not fit in
`int64`. -/
def cTx8 : AATx := { baseTx with sender := 3, nonceKey := some 7, nonce := 2 ^ 64 - 1 }

/-- A state in which every account holds balance `1000`, has nonce `5` and
carries code. -/
def cState : StateDB :=
  { balance := fun _ => 1000, nonce := fun _ => 5, codeSize := fun _ => 1, refund := 0,
    logs := [] }

/-- Scenario: a tipped transaction under London rules (`fee cap 3`, `tip cap
1`, base fee `2`, total gas limit `2`). -/
def cTx2w : AATx := { baseTx with gasFeeCap := 3, gasTipCap := 1, validationGasLimit := 2 }

def cVpr2w : ValidationPhaseResult :=
  { tx := cTx2w, paymasterContext := [], preCharge := 6, effectiveGasPrice := 3,
    preTransactionGasCost := 0, validationRefund := 0, nonceManagerUsedGas := 0,
    deploymentUsedGas := 0, validationUsedGas := 0, pmValidationUsedGas := 0 }

def cCtx2w : BlockCtx := { coinbase := 9, baseFee := 2, isLondon := true, noBaseFee := false }

/-! ## Arithmetic helper lemmas -/

theorem wrap64_eq_of_lt {n : Nat} (h : n < 2 ^ 64) : wrap64 n = n := Nat.mod_eq_of_lt h

theorem wrap64_le (n : Nat) : wrap64 n ≤ n := Nat.mod_le _ _

theorem wrap64_lt (n : Nat) : wrap64 n < 2 ^ 64 := Nat.mod_lt _ (by norm_num)

theorem sub64_eq_sub {a b : Nat} (ha : a < 2 ^ 64) (hba : b ≤ a) : sub64 a b = a - b := by
  unfold sub64 wrap64; omega

theorem sub256_eq_sub {a b : Nat} (ha : a < 2 ^ 256) (hba : b ≤ a) : sub256 a b = a - b := by
  unfold sub256 wrap256; omega

theorem wrap256_eq_of_lt {n : Nat} (h : n < 2 ^ 256) : wrap256 n = n := Nat.mod_eq_of_lt h

theorem capRefund_le (x g : Nat) : capRefund x g ≤ g / RefundQuotientEIP3529 := by
  simp only [capRefund]; split_ifs <;> omega

theorem capRefund_zero (g : Nat) : capRefund 0 g = 0 := by
  simp only [capRefund, RefundQuotientEIP3529]; split_ifs <;> omega

theorem SumGas_foldl_exact (vals : List Nat) : ∀ acc : Nat,
    (∀ v ∈ vals, v ≤ 2 ^ 62) → acc + vals.sum < 2 ^ 64 →
    (vals.foldl
      (fun acc val =>
        match acc with
        | none => none
        | some sum => if val > 2 ^ 62 then none else some (wrap64 (sum + val)))
      (some acc)) = some (acc + vals.sum) := by
  induction vals with
  | nil => intro acc _ _; simp
  | cons v vs ih =>
    intro acc hb hs
    have hv : v ≤ 2 ^ 62 := hb v (by simp)
    have hsum : (v :: vs).sum = v + vs.sum := List.sum_cons
    simp only [List.foldl_cons]
    rw [if_neg (by omega)]
    have hw : wrap64 (acc + v) = acc + v := by
      apply wrap64_eq_of_lt; omega
    rw [hw, ih (acc + v) (fun w hw => hb w (by simp [hw])) (by omega)]
    congr 1; omega

/-- Exact evaluation of `SumGas` when every value is in bounds and the true
sum does not overflow 64 bits. -/
theorem SumGas_exact (vals : List Nat) (hb : ∀ v ∈ vals, v ≤ 2 ^ 62)
    (hs : vals.sum < 2 ^ 64) : SumGas vals = some vals.sum := by
  unfold SumGas
  have := SumGas_foldl_exact vals 0 hb (by omega)
  simpa using this

/-! ## C9 -/

/-- C9: `validateValidityTimeRange` enforces `validAfter ≤ time ≤ validUntil`:
the all-zero window is always valid, an inverted window is rejected as
invalid, a block time above `validUntil` is rejected as expired, a block time
below `validAfter` is rejected as not yet valid, and a time equal to either
bound (in particular inside the window) is accepted. -/
theorem validity_time_range_enforced (time validAfter validUntil : Nat) :
    (validAfter = 0 → validUntil = 0 →
      validateValidityTimeRange time validAfter validUntil = .ok ()) ∧
    (validUntil < validAfter →
      validateValidityTimeRange time validAfter validUntil = .error .rangeInvalid) ∧
    (validAfter ≤ validUntil → ¬(validUntil = 0 ∧ validAfter = 0) → validUntil < time →
      validateValidityTimeRange time validAfter validUntil = .error .expired) ∧
    (validAfter ≤ validUntil → ¬(validUntil = 0 ∧ validAfter = 0) → time ≤ validUntil →
      time < validAfter →
      validateValidityTimeRange time validAfter validUntil = .error .notReachedYet) ∧
    (validAfter ≤ time → time ≤ validUntil →
      validateValidityTimeRange time validAfter validUntil = .ok ()) := by
  unfold validateValidityTimeRange
  refine ⟨?_, ?_, ?_, ?_, ?_⟩ <;> intros <;> split_ifs <;> first | rfl | omega

/-- Witness for C9 at a window with both bounds equal to the block time. -/
theorem validity_time_range_enforced_witness :
    validateValidityTimeRange 5 5 5 = .ok () :=
  (validity_time_range_enforced 5 5 5).2.2.2.2 (by decide) (by decide)

/-! ## C3 -/

/-- C3 is false as stated: with the base gas constant instantiated to `0` and
all four transaction gas fields equal to `2^62` (each component at the
documented bound), the wrapping 64-bit sum returns `0` without an error,
although the mathematical sum is `2^64`. -/
theorem total_gas_limit_wraps :
    (cTx3.gas ≤ 2 ^ 62 ∧ cTx3.validationGasLimit ≤ 2 ^ 62 ∧
      cTx3.paymasterValidationGasLimit ≤ 2 ^ 62 ∧ cTx3.postOpGas ≤ 2 ^ 62) ∧
    TotalGasLimit 0 cTx3 = some 0 ∧
    0 + cTx3.gas + cTx3.validationGasLimit + cTx3.paymasterValidationGasLimit +
      cTx3.postOpGas ≠ 0 := by
  refine ⟨by decide, by decide, by decide⟩

/-- C3 (amended): when every gas component is at most `2^62` and, in addition,
the mathematical sum of the five components is below `2^64`, the
total-gas-limit computation returns that exact sum without an error. -/
theorem total_gas_limit_exact (baseTxGas : Nat) (tx : AATx)
    (h1 : baseTxGas ≤ 2 ^ 62) (h2 : tx.gas ≤ 2 ^ 62) (h3 : tx.validationGasLimit ≤ 2 ^ 62)
    (h4 : tx.paymasterValidationGasLimit ≤ 2 ^ 62) (h5 : tx.postOpGas ≤ 2 ^ 62)
    (hsum : baseTxGas + tx.gas + tx.validationGasLimit + tx.paymasterValidationGasLimit +
      tx.postOpGas < 2 ^ 64) :
    TotalGasLimit baseTxGas tx =
      some (baseTxGas + tx.gas + tx.validationGasLimit + tx.paymasterValidationGasLimit +
        tx.postOpGas) := by
  unfold TotalGasLimit
  rw [SumGas_exact]
  · congr 1
    simp [List.sum_cons]
    omega
  · intro v hv
    simp only [List.mem_cons, List.not_mem_nil, or_false] at hv
    rcases hv with h | h | h | h | h <;> omega
  · simp [List.sum_cons]
    omega

/-- Witness for the amended C3 on a transaction with in-range components. -/
theorem total_gas_limit_exact_witness :
    TotalGasLimit 21000
      { baseTx with
        gas := 100, validationGasLimit := 200,
        paymasterValidationGasLimit := 300, postOpGas := 400 } = some 22000 := by
  have := total_gas_limit_exact 21000
    { baseTx with
      gas := 100, validationGasLimit := 200,
      paymasterValidationGasLimit := 300, postOpGas := 400 }
    (by decide) (by decide) (by decide) (by decide) (by decide) (by decide)
  simpa using this

/-! ## C8 -/

theorem beBytes_length (n : Nat) : ∀ v : Nat, (beBytes n v).length = n := by
  induction n with
  | zero => intro v; rfl
  | succ n ih => intro v; simp [beBytes, ih]

theorem bitLen_le_iff {v m : Nat} : bitLen v ≤ m ↔ v < 2 ^ m := by
  unfold bitLen
  split_ifs with h
  · subst h
    have : (0 : Nat) < 2 ^ m := by positivity
    simp [this]
  · rw [Nat.succ_le_iff, Nat.log2_lt h]

theorem paddedBigBytes_eq_beBytes {v n : Nat} (h : v < 2 ^ (8 * n)) :
    paddedBigBytes v n = beBytes n v := by
  unfold paddedBigBytes
  split_ifs with hge
  · have h1 : bitLen v ≤ 8 * n := bitLen_le_iff.mpr h
    have h2 : 8 * n ≤ bitLen v := by
      have := Nat.div_mul_le_self (bitLen v) 8
      omega
    unfold bigIntBytes
    have h3 : (bitLen v + 7) / 8 = n := by omega
    rw [h3]
  · rfl

theorem goInt64_natAbs_of_lt {n : Nat} (h : n < 2 ^ 63) : (goInt64 n).natAbs = n := by
  unfold goInt64
  rw [if_pos h]
  exact Int.natAbs_ofNat n

/-- C8 is false as stated: for nonce `2^64 - 1` (key `7`), the cast through
`int64` makes the code encode the trailing 8 bytes as the absolute value `1`
rather than the big-endian nonce. -/
theorem nonce_manager_message_misencoded :
    IsRip7712Nonce cTx8 = true ∧
    prepareNonceManagerMessage cTx8 = beBytes 20 3 ++ beBytes 24 7 ++ beBytes 8 1 ∧
    prepareNonceManagerMessage cTx8 ≠
      beBytes 20 cTx8.sender ++ beBytes 24 7 ++ beBytes 8 cTx8.nonce := by
  have h1 : prepareNonceManagerMessage cTx8 = beBytes 20 3 ++ beBytes 24 7 ++ beBytes 8 1 := by
    unfold prepareNonceManagerMessage
    have hk : cTx8.nonceKey.getD 0 = 7 := rfl
    have hn : (goInt64 cTx8.nonce).natAbs = 1 := by decide
    rw [hk, hn, paddedBigBytes_eq_beBytes (show (7 : Nat) < 2 ^ (8 * 24) by norm_num),
      paddedBigBytes_eq_beBytes (show (1 : Nat) < 2 ^ (8 * 8) by norm_num)]
    rfl
  refine ⟨by decide, h1, ?_⟩
  rw [h1]
  decide

/-- C8 (amended): for a two-dimensional nonce with `nonce_key < 2^192` and
`nonce < 2^63`, the nonce-manager call data is exactly the 52 bytes
`sender(20) ∥ nonce_key(24, big-endian) ∥ nonce(8, big-endian)`; when the
RIP-7712 fork is active, a reverting nonce-manager frame fails validation as
a frame revert of entity `NonceManager`; when the fork is inactive the check
fails with the disabled error before issuing any call (for every oracle). -/
theorem nonce_manager_frame_correct (env : Env) (σ : StateDB) (tx : AATx)
    (gasRemaining : Nat) (k : Nat) (hk : tx.nonceKey = some k) (hk192 : k < 2 ^ 192)
    (hn : tx.nonce < 2 ^ 63) :
    (prepareNonceManagerMessage tx =
        beBytes 20 tx.sender ++ beBytes 24 k ++ beBytes 8 tx.nonce ∧
      (prepareNonceManagerMessage tx).length = 52) ∧
    ((CallFrame env σ AA_ENTRY_POINT AA_NONCE_MANAGER (prepareNonceManagerMessage tx)
          gasRemaining).1.failed = true →
      performNonceCheckFrameRip7712 env σ tx true gasRemaining =
        .error (.frameReverted "NonceManager")) ∧
    performNonceCheckFrameRip7712 env σ tx false gasRemaining = .error .rip7712Disabled := by
  have hmsg : prepareNonceManagerMessage tx =
      beBytes 20 tx.sender ++ beBytes 24 k ++ beBytes 8 tx.nonce := by
    unfold prepareNonceManagerMessage
    rw [hk]
    simp only [Option.getD_some]
    have hk' : k < 2 ^ (8 * 24) := lt_of_lt_of_le hk192 (by norm_num)
    have hn' : tx.nonce < 2 ^ (8 * 8) := lt_of_lt_of_le hn (by norm_num)
    rw [paddedBigBytes_eq_beBytes hk']
    rw [goInt64_natAbs_of_lt hn]
    rw [paddedBigBytes_eq_beBytes hn']
  refine ⟨⟨hmsg, ?_⟩, ?_, ?_⟩
  · rw [hmsg]
    simp [beBytes_length]
  · intro hfail
    simp only [performNonceCheckFrameRip7712, CallFrame, Bool.not_true, Bool.false_eq_true,
      if_false] at hfail ⊢
    rw [hfail]
    simp
  · rfl

/-- Witness for the amended C8 on a small two-dimensional nonce. -/
theorem nonce_manager_frame_correct_witness :
    prepareNonceManagerMessage { baseTx with sender := 3, nonceKey := some 7, nonce := 9 } =
      beBytes 20 3 ++ beBytes 24 7 ++ beBytes 8 9 :=
  ((nonce_manager_frame_correct trivialEnv zeroState
    { baseTx with sender := 3, nonceKey := some 7, nonce := 9 } 0 7 rfl (by norm_num)
    (by norm_num)).1).1

/-! ## C4 -/

theorem runCalls_captured (cs : List EvmCallInfo) : ∀ (epc : EntryPointCall) (v : List Nat),
    epc.input = some v →
    runCalls epc cs =
      { input := some v, fromAddr := epc.fromAddr,
        err := epc.err || cs.any isEntryPointCall } := by
  induction cs with
  | nil =>
    intro epc v h
    cases epc with
    | mk i f e =>
      simp only at h
      subst h
      simp [runCalls]
  | cons c cs ih =>
    intro epc v h
    have hstep : runCalls epc (c :: cs) = runCalls (OnEnter epc c) cs := rfl
    rw [hstep]
    by_cases hc : c.callee = AA_ENTRY_POINT
    · have hOn : OnEnter epc c = { epc with err := true } := by
        unfold OnEnter
        rw [if_neg (by simp [hc]), if_pos (by simp [h])]
      rw [hOn, ih _ v (by simp [h])]
      simp [List.any_cons, isEntryPointCall, hc]
    · have hOn : OnEnter epc c = epc := by
        unfold OnEnter
        rw [if_pos hc]
      have hbeq : (c.callee == AA_ENTRY_POINT) = false := by simp [hc]
      rw [hOn, ih _ v h]
      simp [List.any_cons, isEntryPointCall, hbeq]

theorem any_eq_filter_nonempty (p : EvmCallInfo → Bool) (cs : List EvmCallInfo) :
    cs.any p = !(cs.filter p).isEmpty := by
  induction cs with
  | nil => rfl
  | cons c cs ih => by_cases hc : p c <;> simp [List.any_cons, List.filter_cons, hc, ih]

/-- Characterization of the interceptor state reached from the cleared
buffer: no EntryPoint call leaves the buffer empty, the first EntryPoint call
is captured, and any further EntryPoint call only sets the error flag. -/
theorem runCalls_empty_characterization (cs : List EvmCallInfo) :
    runCalls emptyEntryPointCall cs =
      match cs.filter isEntryPointCall with
      | [] => emptyEntryPointCall
      | c :: rest =>
        { input := some c.callInput, fromAddr := c.caller, err := !rest.isEmpty } := by
  induction cs with
  | nil => rfl
  | cons c cs ih =>
    have hstep : runCalls emptyEntryPointCall (c :: cs) =
        runCalls (OnEnter emptyEntryPointCall c) cs := rfl
    by_cases hc : c.callee = AA_ENTRY_POINT
    · have hOn : OnEnter emptyEntryPointCall c =
          { input := some c.callInput, fromAddr := c.caller, err := false } := by
        unfold OnEnter emptyEntryPointCall
        rw [if_neg (by simp [hc])]
        simp
      rw [hstep, hOn, runCalls_captured cs _ c.callInput rfl]
      simp only [List.filter_cons, show isEntryPointCall c = true by simp [isEntryPointCall, hc]]
      simp [any_eq_filter_nonempty]
    · have hOn : OnEnter emptyEntryPointCall c = emptyEntryPointCall := by
        unfold OnEnter
        rw [if_pos hc]
      rw [hstep, hOn, ih]
      simp only [List.filter_cons,
        show isEntryPointCall c = false by simp [isEntryPointCall, hc]]
      simp

/-- C4: inside one validation sub-frame exactly one call to the EntryPoint
must occur: with two or more such calls the interceptor marks the frame
failed and both validators reject; with none, both validators reject with the
missing-callback error; with exactly one, the account validator accepts
exactly when the captured caller is the sender and the paymaster validator
exactly when it is the paymaster; and the buffer cleared between sub-frames
is the empty interceptor state. -/
theorem entrypoint_callback_discipline (cs : List EvmCallInfo) (c : EvmCallInfo)
    (sender paymaster : Nat) :
    (2 ≤ (cs.filter isEntryPointCall).length →
      (runCalls emptyEntryPointCall cs).err = true ∧
      validateAccountEntryPointCall (runCalls emptyEntryPointCall cs) sender =
        .error .repeatedCall ∧
      validatePaymasterEntryPointCall (runCalls emptyEntryPointCall cs) paymaster =
        .error .repeatedCall) ∧
    (cs.filter isEntryPointCall = [] →
      validateAccountEntryPointCall (runCalls emptyEntryPointCall cs) sender =
        .error .noCallback ∧
      validatePaymasterEntryPointCall (runCalls emptyEntryPointCall cs) paymaster =
        .error .noCallback) ∧
    (cs.filter isEntryPointCall = [c] →
      (validateAccountEntryPointCall (runCalls emptyEntryPointCall cs) sender =
          .ok c.callInput ↔ c.caller = sender) ∧
      (validatePaymasterEntryPointCall (runCalls emptyEntryPointCall cs) paymaster =
          .ok c.callInput ↔ c.caller = paymaster)) ∧
    (∀ epc : EntryPointCall, clearEntryPointCall epc = emptyEntryPointCall) := by
  refine ⟨?_, ?_, ?_, fun epc => rfl⟩
  · intro h
    rw [runCalls_empty_characterization]
    cases hfil : cs.filter isEntryPointCall with
    | nil => rw [hfil] at h; simp at h
    | cons c₀ rest =>
      rw [hfil] at h
      cases rest with
      | nil => simp at h
      | cons c₁ rest' =>
        refine ⟨by simp, ?_, ?_⟩ <;>
          simp [validateAccountEntryPointCall, validatePaymasterEntryPointCall]
  · intro h
    rw [runCalls_empty_characterization, h]
    exact ⟨rfl, rfl⟩
  · intro h
    rw [runCalls_empty_characterization, h]
    constructor
    · by_cases hs : c.caller = sender <;>
        simp [validateAccountEntryPointCall, hs]
    · by_cases hs : c.caller = paymaster <;>
        simp [validatePaymasterEntryPointCall, hs]

/-- Witness for C4 on a single captured EntryPoint callback from the
sender. -/
theorem entrypoint_callback_discipline_witness :
    validateAccountEntryPointCall
      (runCalls emptyEntryPointCall
        [{ caller := 7, callee := AA_ENTRY_POINT, callInput := [1, 2] }]) 7 = .ok [1, 2] := by
  have h := (entrypoint_callback_discipline
    [{ caller := 7, callee := AA_ENTRY_POINT, callInput := [1, 2] }]
    { caller := 7, callee := AA_ENTRY_POINT, callInput := [1, 2] } 7 9).2.2.1 (by decide)
  exact h.1.mpr rfl

/-! ## C6 -/

/-- C6: on entry to validation the pre-charge
`totalGasLimit * effectiveGasPrice` (256-bit) is subtracted from the gas
payer's balance and `totalGasLimit` is reserved from the block gas pool; a
payer balance below the pre-charge fails with the insufficient-funds error; a
pool that cannot reserve the gas fails with the gas-limit-reached error; and
the gas payer is the paymaster when present and non-zero, otherwise the
sender. -/
theorem buy_gas_precharge (baseTxGas : Nat) (tx : AATx) (σ : StateDB) (baseFee : Option Nat)
    (gasPrice gp L : Nat)
    (hL : TotalGasLimit baseTxGas tx = some L)
    (hprice : gasPrice = EffectiveGasPrice tx baseFee)
    (hbal256 : σ.balance (GasPayer tx) < 2 ^ 256) :
    (σ.balance (GasPayer tx) < wrap256 (L * gasPrice) →
      BuyGasRip7560Transaction baseTxGas tx σ gasPrice gp =
        (.error .insufficientFunds, σ, gp)) ∧
    (wrap256 (L * gasPrice) ≤ σ.balance (GasPayer tx) → gp < L →
      BuyGasRip7560Transaction baseTxGas tx σ gasPrice gp =
        (.error .gasLimitReached, subBalance σ (GasPayer tx) (wrap256 (L * gasPrice)), gp)) ∧
    (wrap256 (L * gasPrice) ≤ σ.balance (GasPayer tx) → L ≤ gp →
      BuyGasRip7560Transaction baseTxGas tx σ gasPrice gp =
        (.ok (L, wrap256 (L * gasPrice)),
          subBalance σ (GasPayer tx) (wrap256 (L * gasPrice)), gp - L) ∧
      (subBalance σ (GasPayer tx) (wrap256 (L * gasPrice))).balance (GasPayer tx) =
        σ.balance (GasPayer tx) - wrap256 (L * gasPrice)) ∧
    (∀ p, tx.paymaster = some p → p ≠ 0 → GasPayer tx = p) ∧
    (tx.paymaster = some 0 → GasPayer tx = tx.sender) ∧
    (tx.paymaster = none → GasPayer tx = tx.sender) := by
  refine ⟨?_, ?_, ?_, ?_, ?_, ?_⟩
  · intro h
    simp only [BuyGasRip7560Transaction, hL]
    rw [if_pos h]
  · intro h1 h2
    simp only [BuyGasRip7560Transaction, hL]
    rw [if_neg (by omega), if_pos h2]
  · intro h1 h2
    refine ⟨?_, ?_⟩
    · simp only [BuyGasRip7560Transaction, hL]
      rw [if_neg (by omega), if_neg (by omega)]
    · simp only [subBalance, if_true]
      exact sub256_eq_sub hbal256 h1
  · intro p hp hp0
    simp [GasPayer, hp, hp0]
  · intro hp
    simp [GasPayer, hp]
  · intro hp
    simp [GasPayer, hp]

/-- Witness for C6: a funded payer and a sufficient pool buy gas
successfully, and the payer's balance drops by the pre-charge. -/
theorem buy_gas_precharge_witness :
    (BuyGasRip7560Transaction 0 cTx2 cState 1 5).1 = .ok (2, 2) ∧
    (BuyGasRip7560Transaction 0 cTx2 cState 1 5).2.1.balance (GasPayer cTx2) = 998 := by
  have h := (buy_gas_precharge 0 cTx2 cState (some 1) 1 5 2 (by decide) (by decide)
    (by decide)).2.2.1 (by decide) (by decide)
  rw [h.1]
  exact ⟨rfl, rfl⟩

/-! ## C10 -/

/-- C10: when the pool reservation fails, `BuyGasRip7560Transaction` returns
the gas-limit-reached error with the pre-charge already subtracted from the
gas payer's balance and not rolled back inside the function, whereas an
insufficient-balance failure returns the input state unchanged. -/
theorem buy_gas_pool_failure_after_deduction (baseTxGas : Nat) (tx : AATx) (σ : StateDB)
    (gasPrice gp L : Nat) (hL : TotalGasLimit baseTxGas tx = some L)
    (hbal : wrap256 (L * gasPrice) ≤ σ.balance (GasPayer tx))
    (hbal256 : σ.balance (GasPayer tx) < 2 ^ 256)
    (hpc : 0 < wrap256 (L * gasPrice))
    (hpool : gp < L) :
    BuyGasRip7560Transaction baseTxGas tx σ gasPrice gp =
      (.error .gasLimitReached, subBalance σ (GasPayer tx) (wrap256 (L * gasPrice)), gp) ∧
    (subBalance σ (GasPayer tx) (wrap256 (L * gasPrice))).balance (GasPayer tx) <
      σ.balance (GasPayer tx) ∧
    (∀ σ' : StateDB, σ'.balance (GasPayer tx) < wrap256 (L * gasPrice) →
      BuyGasRip7560Transaction baseTxGas tx σ' gasPrice gp =
        (.error .insufficientFunds, σ', gp)) := by
  refine ⟨?_, ?_, ?_⟩
  · simp only [BuyGasRip7560Transaction, hL]
    rw [if_neg (by omega), if_pos hpool]
  · simp only [subBalance, if_true]
    rw [sub256_eq_sub hbal256 hbal]
    omega
  · intro σ' h
    simp only [BuyGasRip7560Transaction, hL]
    rw [if_pos h]

/-- Witness for C10: with a pool of `1` and a total gas limit of `2`, the
reservation fails but the payer has already been charged. -/
theorem buy_gas_pool_failure_after_deduction_witness :
    (BuyGasRip7560Transaction 0 cTx2 cState 1 1).1 = .error .gasLimitReached ∧
    (BuyGasRip7560Transaction 0 cTx2 cState 1 1).2.1.balance (GasPayer cTx2) = 998 := by
  have h := buy_gas_pool_failure_after_deduction 0 cTx2 cState 1 1 2 (by decide) (by decide)
    (by decide) (by decide) (by decide)
  rw [h.1]
  exact ⟨rfl, rfl⟩

/-! ## C2 -/

/-- C2 is false as stated: at base fee `1`, fee cap `1`, tip cap `0`, total
gas limit `2` and gas used `1`, the pre-charge is `2`, the refund is `1` and
the coinbase fee is `0`, so `pre_charge - final_refund - coinbase_fee = 1`,
the burned base fee, not `0`. -/
theorem settlement_not_conservative :
    TotalGasLimit 0 cVpr2.tx = some 2 ∧
    EffectiveGasPrice cVpr2.tx (some cCtx2.baseFee) = cVpr2.effectiveGasPrice ∧
    cVpr2.preCharge = wrap256 (2 * cVpr2.effectiveGasPrice) ∧
    refundAmount cVpr2 1 + coinbaseFeeAmount cCtx2 cVpr2.tx 1 ≠ cVpr2.preCharge ∧
    cVpr2.preCharge - refundAmount cVpr2 1 - coinbaseFeeAmount cCtx2 cVpr2.tx 1 =
      1 * cCtx2.baseFee := by
  set_option maxRecDepth 4000 in
  refine ⟨by decide, by decide, by decide, by decide, by decide⟩

/-- C2 (amended): the pre-charge splits into the payer refund, the coinbase
fee, and the burned base fee: for every accepted transaction (London rules,
fee payment not skipped, `base_fee ≤ gas_fee_cap`, `gas_used ≤ gas_limit`,
no 256-bit overflow of the pre-charge)
`final_refund + coinbase_fee + gas_used * base_fee = pre_charge`; moreover
`payCoinbase` credits exactly `coinbaseFeeAmount` to the coinbase and
`refundPayer` credits exactly `refundAmount` to the gas payer. -/
theorem settlement_conserves_with_base_fee_burn (vpr : ValidationPhaseResult) (ctx : BlockCtx)
    (gasUsed gasLimit : Nat)
    (hLondon : ctx.isLondon = true)
    (hnb : ctx.noBaseFee = false)
    (hbf : ctx.baseFee ≤ vpr.tx.gasFeeCap)
    (htc : vpr.tx.gasTipCap < 2 ^ 256)
    (hprice : vpr.effectiveGasPrice = min vpr.tx.gasFeeCap (ctx.baseFee + vpr.tx.gasTipCap))
    (hpre : vpr.preCharge = gasLimit * vpr.effectiveGasPrice)
    (hgu : gasUsed ≤ gasLimit)
    (hnw : gasLimit * vpr.effectiveGasPrice < 2 ^ 256) :
    refundAmount vpr gasUsed + coinbaseFeeAmount ctx vpr.tx gasUsed + gasUsed * ctx.baseFee =
      vpr.preCharge ∧
    (∀ σ : StateDB, payCoinbase ctx σ vpr.tx gasUsed =
      addBalance σ ctx.coinbase (coinbaseFeeAmount ctx vpr.tx gasUsed)) ∧
    (∀ σ : StateDB, refundPayer vpr σ gasUsed =
      addBalance σ (GasPayer vpr.tx) (refundAmount vpr gasUsed)) := by
  have htip : effectiveTipU256 ctx vpr.tx =
      min vpr.tx.gasTipCap (vpr.tx.gasFeeCap - ctx.baseFee) := by
    unfold effectiveTipU256
    rw [if_pos hLondon]
    have hcast : (vpr.tx.gasFeeCap : Int) - (ctx.baseFee : Int) =
        ((vpr.tx.gasFeeCap - ctx.baseFee : Nat) : Int) := by
      omega
    rw [hcast, ← Nat.cast_min]
    have h0 : (0 : Int) ≤ ((min vpr.tx.gasTipCap (vpr.tx.gasFeeCap - ctx.baseFee) : Nat) :
        Int) := by positivity
    have hlt : ((min vpr.tx.gasTipCap (vpr.tx.gasFeeCap - ctx.baseFee) : Nat) : Int) <
        2 ^ 256 := by
      have h := min_le_left vpr.tx.gasTipCap (vpr.tx.gasFeeCap - ctx.baseFee)
      omega
    dsimp only
    rw [Int.emod_eq_of_lt h0 hlt]
    omega
  have htipval : effectiveTipU256 ctx vpr.tx = vpr.effectiveGasPrice - ctx.baseFee := by
    rw [htip, hprice]; omega
  have hA : gasUsed * vpr.effectiveGasPrice ≤ gasLimit * vpr.effectiveGasPrice :=
    Nat.mul_le_mul hgu (le_refl _)
  have hfee : coinbaseFeeAmount ctx vpr.tx gasUsed =
      gasUsed * (vpr.effectiveGasPrice - ctx.baseFee) := by
    unfold coinbaseFeeAmount
    rw [htipval]
    apply wrap256_eq_of_lt
    calc gasUsed * (vpr.effectiveGasPrice - ctx.baseFee)
        ≤ gasUsed * vpr.effectiveGasPrice := Nat.mul_le_mul (le_refl _) (by omega)
      _ ≤ gasLimit * vpr.effectiveGasPrice := hA
      _ < 2 ^ 256 := hnw
  have href : refundAmount vpr gasUsed =
      vpr.preCharge - gasUsed * vpr.effectiveGasPrice := by
    unfold refundAmount
    rw [Nat.mul_comm vpr.effectiveGasPrice gasUsed]
    rw [wrap256_eq_of_lt (lt_of_le_of_lt hA hnw)]
    apply sub256_eq_sub
    · rw [hpre]; exact hnw
    · rw [hpre]; exact hA
  refine ⟨?_, ?_, ?_⟩
  · rw [href, hfee]
    have hsplit : gasUsed * (vpr.effectiveGasPrice - ctx.baseFee) + gasUsed * ctx.baseFee =
        gasUsed * vpr.effectiveGasPrice := by
      rw [← Nat.mul_add]
      congr 1
      rw [hprice]
      omega
    have hAle : gasUsed * vpr.effectiveGasPrice ≤ vpr.preCharge := by rw [hpre]; exact hA
    omega
  · intro σ
    unfold payCoinbase
    rw [if_neg (by simp [hnb])]
  · intro σ
    rfl

/-- Witness for the amended C2: fee cap `3`, tip cap `1`, base fee `2`,
gas limit `2`, gas used `1`: refund `3` + fee `1` + burned `2` = pre-charge
`6`. -/
theorem settlement_conserves_with_base_fee_burn_witness :
    refundAmount cVpr2w 1 + coinbaseFeeAmount cCtx2w cVpr2w.tx 1 + 1 * cCtx2w.baseFee =
      cVpr2w.preCharge :=
  (settlement_conserves_with_base_fee_burn cVpr2w cCtx2w 1 2 rfl rfl (by decide) (by decide)
    (by decide) (by decide) (by decide) (by decide)).1


/-- C7: with a zero nonce key (not two-dimensional) validation compares the
sender's account nonce in state to the transaction nonce, failing too-high /
too-low / overflow and succeeding without a state change on a match; the
driver increments the sender's nonce by exactly one only when no deployer is
set and the nonce is not two-dimensional; with a two-dimensional nonce and no
deployer the state is untouched; and with a deployer the driver performs no
nonce write of its own — the resulting state is exactly the deployer frame's
oracle output, so an EVM frame preserving the sender's nonce leaves it
unchanged. -/
theorem nonce_check_and_increment (env : Env) (σ : StateDB) (tx : AATx)
    (rip7712Active : Bool) (gasRemaining preTx : Nat) :
    (IsRip7712Nonce tx = false → σ.nonce tx.sender < tx.nonce →
      CheckNonceRip7560 env σ tx rip7712Active gasRemaining = .error .nonceTooHigh) ∧
    (IsRip7712Nonce tx = false → tx.nonce < σ.nonce tx.sender →
      CheckNonceRip7560 env σ tx rip7712Active gasRemaining = .error .nonceTooLow) ∧
    (IsRip7712Nonce tx = false → σ.nonce tx.sender = tx.nonce → tx.nonce = 2 ^ 64 - 1 →
      CheckNonceRip7560 env σ tx rip7712Active gasRemaining = .error .nonceMax) ∧
    (IsRip7712Nonce tx = false → σ.nonce tx.sender = tx.nonce → tx.nonce < 2 ^ 64 - 1 →
      CheckNonceRip7560 env σ tx rip7712Active gasRemaining = .ok (0, σ)) ∧
    (tx.deployer = none → IsRip7712Nonce tx = false →
      applyDeployerFrame env tx σ preTx =
        .ok (0, setNonce σ tx.sender (wrap64 (σ.nonce tx.sender + 1))) ∧
      (σ.nonce tx.sender < 2 ^ 64 - 1 →
        (setNonce σ tx.sender (wrap64 (σ.nonce tx.sender + 1))).nonce tx.sender =
          σ.nonce tx.sender + 1)) ∧
    (tx.deployer = none → IsRip7712Nonce tx = true →
      applyDeployerFrame env tx σ preTx = .ok (0, σ)) ∧
    (∀ d, tx.deployer = some d →
      (CallFrame env σ AA_SENDER_CREATOR d tx.deployerData
          (sub64 tx.validationGasLimit preTx)).1.failed = false →
      (CallFrame env σ AA_SENDER_CREATOR d tx.deployerData
          (sub64 tx.validationGasLimit preTx)).2.codeSize tx.sender ≠ 0 →
      applyDeployerFrame env tx σ preTx =
        .ok ((CallFrame env σ AA_SENDER_CREATOR d tx.deployerData
            (sub64 tx.validationGasLimit preTx)).1.usedGas,
          (CallFrame env σ AA_SENDER_CREATOR d tx.deployerData
            (sub64 tx.validationGasLimit preTx)).2)) := by
  refine ⟨?_, ?_, ?_, ?_, ?_, ?_, ?_⟩
  · intro h1d h
    simp only [CheckNonceRip7560, h1d, if_false, Bool.false_eq_true]
    rw [if_pos h]
  · intro h1d h
    simp only [CheckNonceRip7560, h1d, if_false, Bool.false_eq_true]
    rw [if_neg (by omega), if_pos (by omega)]
  · intro h1d heq hmax
    simp only [CheckNonceRip7560, h1d, if_false, Bool.false_eq_true]
    rw [if_neg (by omega), if_neg (by omega), if_pos (by simp only [wrap64]; omega)]
  · intro h1d heq hlt
    simp only [CheckNonceRip7560, h1d, if_false, Bool.false_eq_true]
    rw [if_neg (by omega), if_neg (by omega), if_neg (by simp only [wrap64]; omega)]
  · intro hd h1d
    refine ⟨?_, ?_⟩
    · simp [applyDeployerFrame, hd, h1d]
    · intro hlt
      simp only [setNonce, if_true]
      simp only [wrap64]
      omega
  · intro hd h2d
    simp [applyDeployerFrame, hd, h2d]
  · intro d hd hfail hcode
    simp only [applyDeployerFrame, hd, CallFrame] at hfail hcode ⊢
    rw [if_neg (by simp [hfail]), if_neg hcode]

/-- Witness for C7: at a matching nonce the check succeeds and the
no-deployer path increments the sender's nonce from `5` to `6`. -/
theorem nonce_check_and_increment_witness :
    CheckNonceRip7560 trivialEnv cState { baseTx with sender := 4, nonce := 5 } false 0 =
      .ok (0, cState) ∧
    (applyDeployerFrame trivialEnv { baseTx with sender := 4, nonce := 5 } cState 0).map
      (fun r => r.2.nonce 4) = .ok 6 := by
  have h := nonce_check_and_increment trivialEnv cState
    { baseTx with sender := 4, nonce := 5 } false 0 0
  refine ⟨h.2.2.2.1 (by decide) (by decide) (by decide), ?_⟩
  have h5 := h.2.2.2.2.1 rfl (by decide)
  rw [h5.1]
  simp only [Except.map]
  rw [h5.2 (by decide)]
  rfl

/-! ## C5 -/

/-- The unused-gas penalty never exceeds the unused gas itself. -/
theorem penalty_le (budget used : Nat) (hb : budget < 2 ^ 64) (hu : used ≤ budget) :
    wrap64 (sub64 budget used * AA_GAS_PENALTY_PCT) / 100 ≤ budget - used := by
  rw [sub64_eq_sub hb hu]
  calc wrap64 ((budget - used) * AA_GAS_PENALTY_PCT) / 100
      ≤ (budget - used) * AA_GAS_PENALTY_PCT / 100 := Nat.div_le_div_right (wrap64_le _)
    _ ≤ (budget - used) * 100 / 100 :=
        Nat.div_le_div_right (Nat.mul_le_mul (le_refl _) (by norm_num [AA_GAS_PENALTY_PCT]))
    _ = budget - used := Nat.mul_div_cancel _ (by norm_num)

/-- Gas bounds across the post-op block: the refund stays at most the used
gas and the used gas grows by at most the post-op gas budget. -/
theorem postOpStep_bounds (env : Env) (vpr : ValidationPhaseResult) (snap σ : StateDB)
    (execRes : ExecutionResult) (gasUsed gasRefund : Nat) (rf : Bool) (es : Nat)
    (henv : ∀ σ' f t d g, (env.call σ' f t d g).usedGas ≤ g)
    (hr : gasRefund ≤ gasUsed)
    (hlt : gasUsed + vpr.tx.postOpGas < 2 ^ 64) :
    (postOpStep env vpr snap σ execRes gasUsed gasRefund rf es).gasRefund ≤
      (postOpStep env vpr snap σ execRes gasUsed gasRefund rf es).gasUsed ∧
    (postOpStep env vpr snap σ execRes gasUsed gasRefund rf es).gasUsed ≤
      gasUsed + vpr.tx.postOpGas := by
  unfold postOpStep
  by_cases hctx : vpr.paymasterContext.length ≠ 0
  · rw [if_pos hctx]
    simp only [CallFrame]
    set c := env.call σ AA_ENTRY_POINT (vpr.tx.paymaster.getD 0)
      (env.encodePostOp (!execRes.failed) (sub64 gasUsed gasRefund) vpr.paymasterContext)
      vpr.tx.postOpGas with hc
    have hused2 : c.usedGas ≤ vpr.tx.postOpGas := by rw [hc]; exact henv _ _ _ _ _
    have hpen2 := penalty_le vpr.tx.postOpGas c.usedGas (by omega) hused2
    have hrefl : wrap64 (gasRefund + capRefund 0 c.usedGas) = gasRefund := by
      rw [capRefund_zero]
      exact wrap64_eq_of_lt (by omega)
    have hpost : wrap64 (c.usedGas +
        wrap64 (sub64 vpr.tx.postOpGas c.usedGas * AA_GAS_PENALTY_PCT) / 100) =
        c.usedGas + wrap64 (sub64 vpr.tx.postOpGas c.usedGas * AA_GAS_PENALTY_PCT) / 100 :=
      wrap64_eq_of_lt (by omega)
    have htot : wrap64 (gasUsed + (c.usedGas +
        wrap64 (sub64 vpr.tx.postOpGas c.usedGas * AA_GAS_PENALTY_PCT) / 100)) =
        gasUsed + (c.usedGas +
          wrap64 (sub64 vpr.tx.postOpGas c.usedGas * AA_GAS_PENALTY_PCT) / 100) :=
      wrap64_eq_of_lt (by omega)
    rw [hrefl, hpost, htot]
    constructor <;> omega
  · rw [if_neg hctx]
    exact ⟨hr, Nat.le_add_right _ _⟩

/-- The settlement tail succeeds and returns the unused remainder to the gas
pool whenever the final gas does not exceed the total limit and the pool has
room. -/
theorem finishExecutionPhase_ok (ctx : BlockCtx) (vpr : ValidationPhaseResult)
    (baseTxGas gp T : Nat) (execRes : ExecutionResult) (p : PostOpOutcome)
    (hT : TotalGasLimit baseTxGas vpr.tx = some T)
    (hr : p.gasRefund ≤ p.gasUsed) (hlt : p.gasUsed < 2 ^ 64)
    (hle : p.gasUsed - p.gasRefund ≤ T)
    (hgp : gp + T ≤ 2 ^ 64 - 1) :
    ∃ r, finishExecutionPhase ctx vpr baseTxGas gp execRes p = some r ∧
      r.gasUsed = p.gasUsed - p.gasRefund ∧
      r.gasPool = gp + (T - (p.gasUsed - p.gasRefund)) := by
  simp only [finishExecutionPhase, hT, Option.getD_some]
  rw [sub64_eq_sub hlt hr]
  rw [if_neg (by omega), if_neg (by omega)]
  exact ⟨_, rfl, rfl, rfl⟩

/-- Composition of the post-op block and the settlement tail under the
per-frame gas budgets. -/
theorem exec_compose (env : Env) (ctx : BlockCtx) (vpr : ValidationPhaseResult)
    (snap σ1 : StateDB) (execRes : ExecutionResult) (rf : Bool) (es : Nat)
    (gp baseTxGas T G R : Nat)
    (henv : ∀ σ' f t d g, (env.call σ' f t d g).usedGas ≤ g)
    (hT : TotalGasLimit baseTxGas vpr.tx = some T)
    (hRle : R ≤ G)
    (hGT : G + vpr.tx.postOpGas ≤ T)
    (hT64 : T < 2 ^ 64)
    (hgp : gp + T ≤ 2 ^ 64 - 1) :
    ∃ r, finishExecutionPhase ctx vpr baseTxGas gp execRes
        (postOpStep env vpr snap σ1 execRes G R rf es) = some r ∧
      r.gasUsed ≤ T ∧ r.gasPool = gp + (T - r.gasUsed) := by
  have hG64 : G + vpr.tx.postOpGas < 2 ^ 64 := by omega
  obtain ⟨hpr, hpu⟩ := postOpStep_bounds env vpr snap σ1 execRes G R rf es henv hRle hG64
  obtain ⟨r, h1, h2, h3⟩ := finishExecutionPhase_ok ctx vpr baseTxGas gp T execRes
    (postOpStep env vpr snap σ1 execRes G R rf es) hT hpr (by omega) (by omega) hgp
  exact ⟨r, h1, by omega, by rw [h3, h2]⟩

/-- C5 is false as stated: the nonce-manager frame runs under the state
transition's full remaining gas (the entire total gas limit), a budget the
later sub-frame budgets do not account for; a validation result respecting
every per-frame budget (nonce-manager 100 of 100, account validation 50 of
100) drives the final `gas_used` to 150 against a total gas limit of 100, so
the guarding panic branch is reached. -/
theorem exec_phase_panic_reachable :
    (cVpr5.preTransactionGasCost ≤ cTx5.validationGasLimit ∧
      cVpr5.deploymentUsedGas ≤ cTx5.validationGasLimit - cVpr5.preTransactionGasCost ∧
      cVpr5.validationUsedGas ≤
        cTx5.validationGasLimit - cVpr5.preTransactionGasCost - cVpr5.deploymentUsedGas ∧
      cVpr5.pmValidationUsedGas ≤ cTx5.paymasterValidationGasLimit ∧
      TotalGasLimit 0 cTx5 = some 100 ∧
      cVpr5.nonceManagerUsedGas ≤ 100) ∧
    ApplyRip7560ExecutionPhase trivialEnv cCtx5 cVpr5 cState 0 0 = none :=
  ⟨by decide, rfl⟩

/-- C5 (amended): for every transaction whose nonce-manager frame consumed no
gas (in particular every transaction with a one-dimensional nonce), with the
validation-phase used-gas counters inside the budgets validation enforces,
every gas field at most `2^62`, the five-component total below `2^64`, a
well-formed EVM oracle (a frame never uses more than its supplied budget) and
room in the block gas pool, the execution phase completes with a receipt, the
final `gas_used` never exceeds `total_gas_limit` (the panic branch is not
taken) and the unused remainder `total_gas_limit - gas_used` is returned to
the block gas pool. -/
theorem exec_phase_gas_within_limit (env : Env) (ctx : BlockCtx)
    (vpr : ValidationPhaseResult) (σ : StateDB) (gp baseTxGas : Nat)
    (henv : ∀ σ' f t d g, (env.call σ' f t d g).usedGas ≤ g)
    (hnm : vpr.nonceManagerUsedGas = 0)
    (hpre : vpr.preTransactionGasCost ≤ vpr.tx.validationGasLimit)
    (hdep : vpr.deploymentUsedGas ≤ vpr.tx.validationGasLimit - vpr.preTransactionGasCost)
    (hav : vpr.validationUsedGas ≤
      vpr.tx.validationGasLimit - vpr.preTransactionGasCost - vpr.deploymentUsedGas)
    (hpm : vpr.pmValidationUsedGas ≤ vpr.tx.paymasterValidationGasLimit)
    (hb : baseTxGas ≤ 2 ^ 62) (hg : vpr.tx.gas ≤ 2 ^ 62)
    (hv : vpr.tx.validationGasLimit ≤ 2 ^ 62)
    (hpv : vpr.tx.paymasterValidationGasLimit ≤ 2 ^ 62) (hpo : vpr.tx.postOpGas ≤ 2 ^ 62)
    (hsum : baseTxGas + vpr.tx.gas + vpr.tx.validationGasLimit +
      vpr.tx.paymasterValidationGasLimit + vpr.tx.postOpGas < 2 ^ 64)
    (hgp : gp + (baseTxGas + vpr.tx.gas + vpr.tx.validationGasLimit +
      vpr.tx.paymasterValidationGasLimit + vpr.tx.postOpGas) ≤ 2 ^ 64 - 1) :
    ∃ r, ApplyRip7560ExecutionPhase env ctx vpr σ gp baseTxGas = some r ∧
      r.gasUsed ≤ baseTxGas + vpr.tx.gas + vpr.tx.validationGasLimit +
        vpr.tx.paymasterValidationGasLimit + vpr.tx.postOpGas ∧
      r.gasPool = gp + ((baseTxGas + vpr.tx.gas + vpr.tx.validationGasLimit +
        vpr.tx.paymasterValidationGasLimit + vpr.tx.postOpGas) - r.gasUsed) := by
  have hT : TotalGasLimit baseTxGas vpr.tx =
      some (baseTxGas + vpr.tx.gas + vpr.tx.validationGasLimit +
        vpr.tx.paymasterValidationGasLimit + vpr.tx.postOpGas) := by
    unfold TotalGasLimit
    rw [SumGas_exact]
    · congr 1
      simp [List.sum_cons]
      omega
    · intro v hv'
      simp only [List.mem_cons, List.not_mem_nil, or_false] at hv'
      rcases hv' with h | h | h | h | h <;> omega
    · simp [List.sum_cons]
      omega
  have hvU : (validationPhaseUsedGas vpr).getD 0 ≤
      vpr.tx.validationGasLimit + vpr.tx.paymasterValidationGasLimit := by
    unfold validationPhaseUsedGas
    rw [SumGas_exact]
    · simp only [Option.getD_some]
      simp [List.sum_cons]
      omega
    · intro v hv'
      simp only [List.mem_cons, List.not_mem_nil, or_false] at hv'
      rcases hv' with h | h | h | h | h <;> omega
    · simp [List.sum_cons]
      omega
  simp only [ApplyRip7560ExecutionPhase, CallFrame]
  have husedle : (env.call σ AA_ENTRY_POINT vpr.tx.sender vpr.tx.executionData
      vpr.tx.gas).usedGas ≤ vpr.tx.gas := henv _ _ _ _ _
  have hpen := penalty_le vpr.tx.gas
    (env.call σ AA_ENTRY_POINT vpr.tx.sender vpr.tx.executionData vpr.tx.gas).usedGas
    (by omega) husedle
  have hwle := wrap64_le ((validationPhaseUsedGas vpr).getD 0 +
    (env.call σ AA_ENTRY_POINT vpr.tx.sender vpr.tx.executionData vpr.tx.gas).usedGas +
    wrap64 (sub64 vpr.tx.gas
      (env.call σ AA_ENTRY_POINT vpr.tx.sender vpr.tx.executionData vpr.tx.gas).usedGas *
      AA_GAS_PENALTY_PCT) / 100)
  refine exec_compose env ctx vpr σ _ _ _ _ gp baseTxGas _ _ _ henv hT
    (le_trans (capRefund_le _ _) (Nat.div_le_self _ _)) (by omega) (by omega) (by omega)

/-- Witness for the amended C5: the trivial oracle on an all-zero validation
result spends no gas and returns the whole limit to the pool. -/
theorem exec_phase_gas_within_limit_witness :
    ∃ r, ApplyRip7560ExecutionPhase trivialEnv cCtx5
        { cVpr5 with nonceManagerUsedGas := 0, validationUsedGas := 0 } cState 7 0 = some r ∧
      r.gasUsed ≤ 0 + cTx5.gas + cTx5.validationGasLimit + cTx5.paymasterValidationGasLimit +
        cTx5.postOpGas ∧
      r.gasPool = 7 + ((0 + cTx5.gas + cTx5.validationGasLimit +
        cTx5.paymasterValidationGasLimit + cTx5.postOpGas) - r.gasUsed) :=
  exec_phase_gas_within_limit trivialEnv cCtx5
    { cVpr5 with nonceManagerUsedGas := 0, validationUsedGas := 0 } cState 7 0
    (fun _ _ _ _ _ => by simp [trivialEnv]) rfl (by decide) (by decide) (by decide) (by decide)
    (by decide) (by decide) (by decide) (by decide) (by decide) (by decide) (by decide)

/-! ## C1 -/

/-- C1 (code-bug evidence): with a failed execution frame and a failed
paymaster post-op frame, the state is reverted to the snapshot taken before
the account execution call (the oracle's balance write to slot `99` is
discarded while the receipt is built), but the recorded execution status is
`ExecutionStatusPostOpFailure` (2) and not
`ExecutionStatusExecutionAndPostOpFailure` (3): the conditional assignment of
status 3 in the source is immediately overwritten by the unconditional
assignment of status 2. -/
theorem postop_failure_status_clobbered :
    (cEnv1.call zeroState AA_ENTRY_POINT cTx1.sender cTx1.executionData cTx1.gas).failed =
      true ∧
    (cEnv1.call zeroState AA_ENTRY_POINT cTx1.sender cTx1.executionData
      cTx1.gas).state.balance 99 = 77 ∧
    (ApplyRip7560ExecutionPhase cEnv1 cCtx1 cVpr1 zeroState 0 0).map
      (fun r => (r.executionStatus, r.receiptFailed, r.gasUsed, r.state.balance 99,
        r.gasPool)) =
      some (ExecutionStatusPostOpFailure, true, 10, 0, 20) ∧
    ExecutionStatusPostOpFailure ≠ ExecutionStatusExecutionAndPostOpFailure := by
  refine ⟨rfl, rfl, rfl, by decide⟩

end Rip7560
